import Mathlib

/-!
# Verification of the Tessellation shape core

Shallow embedding of the `TessShape` class (`tess_shape.h`) and the
snap-pair search (`Tess::FindClosestSnapPoints` in `tess.cpp`) of the
Tessellation repository, with proofs about its documented behaviour.

Coordinates are modelled as real numbers (the C++ code uses `float`;
the idealised real-number semantics is the standard shallow embedding
for this kind of 2D geometry code).  Mutation is modelled by explicit
state passing: every mutating member function becomes a function from
`TessShape` to `TessShape`, and every accessor that may refresh the
cache returns a pair of the observed value and the post-call state.
-/

/-- A 2D point or vector with real coordinates, modelling `olc::vf2d`. -/
structure Pt where
  x : ℝ
  y : ℝ

/-- Componentwise addition, modelling `olc::vf2d::operator+`. -/
def Pt.add (p q : Pt) : Pt := ⟨p.x + q.x, p.y + q.y⟩

/-- Componentwise subtraction, modelling `olc::vf2d::operator-`. -/
def Pt.sub (p q : Pt) : Pt := ⟨p.x - q.x, p.y - q.y⟩

/-- Scaling by a scalar, modelling `olc::vf2d::operator*(float)`. -/
def Pt.scale (p : Pt) (k : ℝ) : Pt := ⟨p.x * k, p.y * k⟩

/-- Euclidean magnitude, modelling `olc::vf2d::mag()`. -/
noncomputable def Pt.mag (p : Pt) : ℝ := Real.sqrt (p.x * p.x + p.y * p.y)

/-- An RGBA colour, modelling `olc::Pixel` (components are bytes in C++;
`operator==` compares all four components, which the `Nat` model mirrors). -/
structure Pixel where
  r : ℕ
  g : ℕ
  b : ℕ
  a : ℕ
deriving DecidableEq

/-- Models `olc::BLANK`, the fully transparent black pixel `Pixel(0, 0, 0, 0)`. -/
def BLANK : Pixel := ⟨0, 0, 0, 0⟩

/-- Models `TessShape::computeCentroid`: arithmetic mean of the point list
(sums of the x and the y components, each divided by the point count). -/
noncomputable def computeCentroid (points : List Pt) : Pt :=
  ⟨(points.map Pt.x).sum / (points.length : ℝ),
   (points.map Pt.y).sum / (points.length : ℝ)⟩

/-- Models `std::round`: round to the nearest integer, halfway cases away from zero. -/
noncomputable def roundAway (v : ℝ) : ℤ :=
  if 0 ≤ v then ⌊v + 1 / 2⌋ else -⌊-v + 1 / 2⌋

/-- Models `TessShape::RoundPointCoordinates`: round both coordinates of a point to
`decimalPlaces` decimal places (multiply by `10 ^ decimalPlaces`, `std::round`,
divide back). -/
noncomputable def RoundPointCoordinates (point : Pt) (decimalPlaces : ℕ) : Pt :=
  let multiplier : ℝ := 10 ^ decimalPlaces
  ⟨(roundAway (point.x * multiplier) : ℝ) / multiplier,
   (roundAway (point.y * multiplier) : ℝ) / multiplier⟩

/-- The state of a `TessShape` object: its fields as declared in
`tess_shape.h` (the `tv_` rendering handle carries no geometric state and is
omitted). -/
structure TessShape where
  originalPoints : List Pt
  originalCentroid : Pt
  drawPoints : List Pt
  drawCentroid : Pt
  translation : Pt
  rotation : ℝ
  dirty : Bool
  color : Pixel
  fill : Bool

/-- The `TessShape` constructor: stores the points as both `originalPoints_`
and `drawPoints_`, sets `translation_ = (0,0)`, `rotation_ = 0`,
`dirty_ = true`, `color_ = olc::BLANK`, `fill_ = false`, and computes both
centroids from the supplied points.  The constructor performs no validation
of the point count. -/
noncomputable def TessShape.construct (points : List Pt) : TessShape :=
  { originalPoints := points
    originalCentroid := computeCentroid points
    drawPoints := points
    drawCentroid := computeCentroid points
    translation := ⟨0, 0⟩
    rotation := 0
    dirty := true
    color := BLANK
    fill := false }

/-- Whether the `TessShape` constructor raises an error on the given point
list.  The constructor in `tess_shape.h` contains no validation and no throw
of any kind, so no input makes construction fail. -/
def TessShape.constructFails (_points : List Pt) : Prop := False

/-- Models `TessShape::moveTo`: sets `translation_ = newPos - originalCentroid_`
and marks the cache dirty. -/
def TessShape.moveTo (s : TessShape) (newPos : Pt) : TessShape :=
  { s with translation := Pt.sub newPos s.originalCentroid, dirty := true }

/-- Models `TessShape::rotate`: adds the delta to `rotation_`, then applies a single
correction step (`- 360` if the sum exceeds `360`, `+ 360` if it is below
`-360`), and marks the cache dirty. -/
noncomputable def TessShape.rotate (s : TessShape) (angleDegrees : ℝ) : TessShape :=
  let r := s.rotation + angleDegrees
  let r' := if r > 360 then r - 360 else if r < -360 then r + 360 else r
  { s with rotation := r', dirty := true }

/-- Models `TessShape::getRotation`: returns `rotation_` without any recompute. -/
def TessShape.getRotation (s : TessShape) : ℝ := s.rotation

/-- Models `TessShape::recalculateDrawPoints`: rotate each original point about the
original centroid by `rotation_` degrees and round to 2 decimal places; then
add `translation_` to each point and round again; finally set the draw
centroid to the translated original centroid, rounded likewise. -/
noncomputable def TessShape.recalculateDrawPoints (s : TessShape) : TessShape :=
  let angleRadians := s.rotation * (Real.pi / 180)
  let rotated := s.originalPoints.map (fun point =>
    let xTranslated := point.x - s.originalCentroid.x
    let yTranslated := point.y - s.originalCentroid.y
    let xRotated := xTranslated * Real.cos angleRadians -
      yTranslated * Real.sin angleRadians + s.originalCentroid.x
    let yRotated := xTranslated * Real.sin angleRadians +
      yTranslated * Real.cos angleRadians + s.originalCentroid.y
    RoundPointCoordinates ⟨xRotated, yRotated⟩ 2)
  let translated := rotated.map (fun point =>
    RoundPointCoordinates ⟨point.x + s.translation.x, point.y + s.translation.y⟩ 2)
  let newCentroid := RoundPointCoordinates
    ⟨s.originalCentroid.x + s.translation.x, s.originalCentroid.y + s.translation.y⟩ 2
  { s with drawPoints := translated, drawCentroid := newCentroid }

/-- The lazy-recompute step shared by every refreshing accessor:
`if (dirty_) { recalculateDrawPoints(); dirty_ = false; }`. -/
noncomputable def TessShape.refresh (s : TessShape) : TessShape :=
  if s.dirty then { s.recalculateDrawPoints with dirty := false } else s

/-- Models `TessShape::getCentroid`: refreshes if dirty, then returns
`drawCentroid_`.  The returned pair is (observed value, post-call state). -/
noncomputable def TessShape.getCentroid (s : TessShape) : Pt × TessShape :=
  let s' := s.refresh
  (s'.drawCentroid, s')

/-- The transformed-vertex view of a shape: refresh if dirty, then read
`drawPoints_`.  This is exactly how `TessShape::draw` reads the vertex list
(refresh first, then iterate over `drawPoints_`), and models the spec's
`vertices()` accessor. -/
noncomputable def TessShape.vertices (s : TessShape) : List Pt × TessShape :=
  let s' := s.refresh
  (s'.drawPoints, s')

/-- Models `TessShape::snapPoints`: refreshes if dirty, then returns `drawPoints_`
followed by the midpoint of each wrapping edge
`(drawPoints_[i] + drawPoints_[(i+1) % n]) * 0.5`. -/
noncomputable def TessShape.snapPoints (s : TessShape) : List Pt × TessShape :=
  let s' := s.refresh
  let d := s'.drawPoints
  (d ++ (List.range d.length).map (fun i =>
    Pt.scale (Pt.add (d.getD i ⟨0, 0⟩) (d.getD ((i + 1) % d.length) ⟨0, 0⟩)) (1 / 2)),
   s')

/-- Models `TessShape::setColor`: stores the colour, then sets `fill_` to `false`
when the stored colour equals `olc::BLANK` and to `true` otherwise. -/
def TessShape.setColor (s : TessShape) (newColor : Pixel) : TessShape :=
  let s' := { s with color := newColor }
  if s'.color = BLANK then { s' with fill := false } else { s' with fill := true }

/-- The per-edge test of `TessShape::isInside` for edge `i` of the cached
point list `d`: the endpoints straddle the query's y coordinate, and the
query's x coordinate lies left of the edge's crossing with the horizontal
ray. -/
noncomputable def edgeCondition (d : List Pt) (point : Pt) (i : ℕ) : Bool :=
  let pti := d.getD i ⟨0, 0⟩
  let ptj := d.getD ((i + 1) % d.length) ⟨0, 0⟩
  decide ((¬((pti.y > point.y) ↔ (ptj.y > point.y))) ∧
    point.x < (ptj.x - pti.x) * (point.y - pti.y) / (ptj.y - pti.y) + pti.x)

/-- Models `TessShape::isInside`: ray-casting parity test over the cached
`drawPoints_`.  The method is `const` and performs no refresh. -/
noncomputable def TessShape.isInside (s : TessShape) (point : Pt) : Bool :=
  ((List.range s.drawPoints.length).countP (edgeCondition s.drawPoints point)) % 2 == 1

/-- The per-edge test instrumented for division safety: the quotient is
formed only when the straddle guard has already passed (mirroring the C++
short-circuit `&&`), and the result is `none` exactly when an evaluated
division would have a zero denominator. -/
noncomputable def edgeConditionChecked (d : List Pt) (point : Pt) (i : ℕ) : Option Bool :=
  let pti := d.getD i ⟨0, 0⟩
  let ptj := d.getD ((i + 1) % d.length) ⟨0, 0⟩
  if ¬((pti.y > point.y) ↔ (ptj.y > point.y)) then
    if ptj.y - pti.y = 0 then none
    else some (decide (point.x <
      (ptj.x - pti.x) * (point.y - pti.y) / (ptj.y - pti.y) + pti.x))
  else some false

/-- Models `TessShape::isInside` instrumented for division safety: `none` when any
evaluated edge test would divide by zero, otherwise the parity result. -/
noncomputable def TessShape.isInsideChecked (s : TessShape) (point : Pt) : Option Bool := do
  let results ← (List.range s.drawPoints.length).mapM
    (edgeConditionChecked s.drawPoints point)
  pure ((results.countP id) % 2 == 1)

/-- The `SnapPair` structure of `tess.cpp`: two snap points and the distance
between them. -/
structure SnapPair where
  bestCurrentPoint : Pt
  bestClosestPoint : Pt
  distance : ℝ

/-- Models `SNAP_DIST_MAX`, the snap threshold constant of `tess.cpp`. -/
def SNAP_DIST_MAX : ℝ := 5

/-- Models `Tess::FindClosestSnapPoints`: for every snap point of the current shape
and every snap point of the closest shape, record the pair together with its
Euclidean distance whenever that distance is strictly below `SNAP_DIST_MAX`,
in nested-loop order.  (The C++ null-pointer early return has no counterpart:
shapes are values here.) -/
noncomputable def FindClosestSnapPoints (pCurrentShape pClosestShape : TessShape) :
    List SnapPair :=
  let currentSnapPoints := (pCurrentShape.snapPoints).1
  let closestSnapPoints := (pClosestShape.snapPoints).1
  currentSnapPoints.flatMap (fun currentPoint =>
    closestSnapPoints.filterMap (fun closestPoint =>
      let distance := (Pt.sub currentPoint closestPoint).mag
      if distance < SNAP_DIST_MAX then
        some ⟨currentPoint, closestPoint, distance⟩
      else none))

/-- Modelled from the spec: the spec's recompute algorithm for `vertices()`
with "a single rounding step at the end" — rotate each base point about the
base centroid, add the translation offset, and only then round the result to
2 decimal places.  (The repository code rounds twice; this definition follows
the claim's words for comparison.) -/
noncomputable def verticesSpecSingleRound (s : TessShape) : List Pt :=
  let angleRadians := s.rotation * (Real.pi / 180)
  s.originalPoints.map (fun point =>
    let xTranslated := point.x - s.originalCentroid.x
    let yTranslated := point.y - s.originalCentroid.y
    let xRotated := xTranslated * Real.cos angleRadians -
      yTranslated * Real.sin angleRadians + s.originalCentroid.x
    let yRotated := xTranslated * Real.sin angleRadians +
      yTranslated * Real.cos angleRadians + s.originalCentroid.y
    RoundPointCoordinates
      ⟨xRotated + s.translation.x, yRotated + s.translation.y⟩ 2)

/-- Cache-length well-formedness: the cached draw points have one entry per
base point.  Holds at construction and is preserved by every operation. -/
def TessShape.WF (s : TessShape) : Prop :=
  s.drawPoints.length = s.originalPoints.length

/-- Cache coherence: whenever the dirty flag is clear, the cached draw points
and draw centroid agree with what a recompute from the current rotation and
translation would produce.  Holds at construction (vacuously, the flag is
set) and is preserved by every operation. -/
def TessShape.Coherent (s : TessShape) : Prop :=
  s.dirty = false →
    s.drawPoints = s.recalculateDrawPoints.drawPoints ∧
    s.drawCentroid = s.recalculateDrawPoints.drawCentroid

/-- The body of the first loop of `recalculateDrawPoints`: translate the
point relative to the centroid `c`, apply the standard 2D rotation matrix
for `angleDegrees`, translate back, and round to 2 decimal places. -/
noncomputable def rotateRound (c : Pt) (angleDegrees : ℝ) (point : Pt) : Pt :=
  let angleRadians := angleDegrees * (Real.pi / 180)
  RoundPointCoordinates
    ⟨(point.x - c.x) * Real.cos angleRadians -
      (point.y - c.y) * Real.sin angleRadians + c.x,
     (point.x - c.x) * Real.sin angleRadians +
      (point.y - c.y) * Real.cos angleRadians + c.y⟩ 2

/-- The body of the second loop of `recalculateDrawPoints`: add the overall
translation and round to 2 decimal places again. -/
noncomputable def translateRound (t : Pt) (point : Pt) : Pt :=
  RoundPointCoordinates ⟨point.x + t.x, point.y + t.y⟩ 2

/-! ## Rounding helper lemmas -/

/-- Rounding an integer value is the identity. -/
theorem roundAway_intCast (n : ℤ) : roundAway ((n : ℝ)) = n := by
  unfold roundAway
  rcases le_or_lt 0 (n : ℝ) with h | h
  · rw [if_pos h, Int.floor_eq_iff]
    constructor
    · linarith
    · linarith
  · rw [if_neg (not_le.mpr h)]
    have hcast : -(n : ℝ) + 1 / 2 = ((-n : ℤ) : ℝ) + 1 / 2 := by push_cast; ring
    rw [hcast]
    have : ⌊((-n : ℤ) : ℝ) + 1 / 2⌋ = -n := by
      rw [Int.floor_eq_iff]
      constructor
      · linarith
      · linarith
    rw [this]
    ring

/-- Evaluation rule for `roundAway` on a nonnegative argument. -/
theorem roundAway_eq_of_nonneg (v : ℝ) (n : ℤ) (h0 : 0 ≤ v)
    (hl : (n : ℝ) ≤ v + 1 / 2) (hu : v + 1 / 2 < (n : ℝ) + 1) : roundAway v = n := by
  unfold roundAway
  rw [if_pos h0, Int.floor_eq_iff]
  exact ⟨hl, by linarith⟩

/-- Evaluation rule for `roundAway` on a negative argument. -/
theorem roundAway_eq_of_neg (v : ℝ) (n : ℤ) (h0 : v < 0)
    (hl : (n : ℝ) ≤ -v + 1 / 2) (hu : -v + 1 / 2 < (n : ℝ) + 1) : roundAway v = -n := by
  unfold roundAway
  rw [if_neg (not_le.mpr h0)]
  have : ⌊-v + 1 / 2⌋ = n := by
    rw [Int.floor_eq_iff]
    exact ⟨hl, by linarith⟩
  rw [this]

/-- Rounding moves a value by at most one half. -/
theorem abs_roundAway_sub_le (v : ℝ) : |(roundAway v : ℝ) - v| ≤ 1 / 2 := by
  unfold roundAway
  rcases le_or_lt 0 v with h | h
  · rw [if_pos h, abs_le]
    constructor
    · have := Int.lt_floor_add_one (v + 1 / 2)
      linarith
    · have := Int.floor_le (v + 1 / 2)
      linarith
  · rw [if_neg (not_le.mpr h), abs_le]
    constructor
    · have := Int.floor_le (-v + 1 / 2)
      push_cast
      linarith
    · have := Int.lt_floor_add_one (-v + 1 / 2)
      push_cast
      linarith

/-- Rounding to two decimal places moves each coordinate by at most `0.005`,
hence certainly by at most `0.01`. -/
theorem abs_round2_sub_le (v : ℝ) : |(roundAway (v * 100) : ℝ) / 100 - v| ≤ 1 / 100 := by
  have h := abs_roundAway_sub_le (v * 100)
  have heq : (roundAway (v * 100) : ℝ) / 100 - v =
      ((roundAway (v * 100) : ℝ) - v * 100) / 100 := by ring
  rw [heq, abs_div, abs_of_pos (by norm_num : (0 : ℝ) < 100)]
  linarith

/-- Unfolding rule for two-decimal-place point rounding. -/
theorem RoundPointCoordinates_two (p : Pt) :
    RoundPointCoordinates p 2 =
      ⟨(roundAway (p.x * 100) : ℝ) / 100, (roundAway (p.y * 100) : ℝ) / 100⟩ := by
  unfold RoundPointCoordinates
  norm_num

/-- Evaluation rule for two-decimal-place point rounding. -/
theorem RoundPointCoordinates_two_eval (p : Pt) (n m : ℤ)
    (hn : roundAway (p.x * 100) = n) (hm : roundAway (p.y * 100) = m) :
    RoundPointCoordinates p 2 = ⟨(n : ℝ) / 100, (m : ℝ) / 100⟩ := by
  rw [RoundPointCoordinates_two, hn, hm]

/-- Two-decimal-place rounding fixes points whose coordinates are hundredths
of integers. -/
theorem RoundPointCoordinates_two_fixed (p : Pt) (n m : ℤ)
    (hn : p.x * 100 = (n : ℝ)) (hm : p.y * 100 = (m : ℝ)) :
    RoundPointCoordinates p 2 = p := by
  rw [RoundPointCoordinates_two, hn, hm, roundAway_intCast, roundAway_intCast,
    ← hn, ← hm]
  have hx : p.x * 100 / 100 = p.x := by ring
  have hy : p.y * 100 / 100 = p.y := by ring
  rw [hx, hy]

/-! ## Basic state lemmas -/

/-- Recomputation touches only the draw points and the draw centroid. -/
theorem recalculateDrawPoints_fields (s : TessShape) :
    s.recalculateDrawPoints.originalPoints = s.originalPoints ∧
    s.recalculateDrawPoints.originalCentroid = s.originalCentroid ∧
    s.recalculateDrawPoints.translation = s.translation ∧
    s.recalculateDrawPoints.rotation = s.rotation ∧
    s.recalculateDrawPoints.dirty = s.dirty ∧
    s.recalculateDrawPoints.color = s.color ∧
    s.recalculateDrawPoints.fill = s.fill := by
  unfold TessShape.recalculateDrawPoints
  exact ⟨rfl, rfl, rfl, rfl, rfl, rfl, rfl⟩

/-- The draw points computed by a recompute, in closed form. -/
theorem recalculateDrawPoints_drawPoints (s : TessShape) :
    s.recalculateDrawPoints.drawPoints = s.originalPoints.map (fun point =>
      RoundPointCoordinates
        ⟨(RoundPointCoordinates
            ⟨(point.x - s.originalCentroid.x) * Real.cos (s.rotation * (Real.pi / 180)) -
              (point.y - s.originalCentroid.y) * Real.sin (s.rotation * (Real.pi / 180)) +
              s.originalCentroid.x,
             (point.x - s.originalCentroid.x) * Real.sin (s.rotation * (Real.pi / 180)) +
              (point.y - s.originalCentroid.y) * Real.cos (s.rotation * (Real.pi / 180)) +
              s.originalCentroid.y⟩ 2).x + s.translation.x,
         (RoundPointCoordinates
            ⟨(point.x - s.originalCentroid.x) * Real.cos (s.rotation * (Real.pi / 180)) -
              (point.y - s.originalCentroid.y) * Real.sin (s.rotation * (Real.pi / 180)) +
              s.originalCentroid.x,
             (point.x - s.originalCentroid.x) * Real.sin (s.rotation * (Real.pi / 180)) +
              (point.y - s.originalCentroid.y) * Real.cos (s.rotation * (Real.pi / 180)) +
              s.originalCentroid.y⟩ 2).y + s.translation.y⟩ 2) := by
  unfold TessShape.recalculateDrawPoints
  dsimp only
  rw [List.map_map]
  rfl

/-- The draw centroid computed by a recompute, in closed form. -/
theorem recalculateDrawPoints_drawCentroid (s : TessShape) :
    s.recalculateDrawPoints.drawCentroid = RoundPointCoordinates
      ⟨s.originalCentroid.x + s.translation.x, s.originalCentroid.y + s.translation.y⟩ 2 := rfl

/-- The refresh step never leaves the dirty flag set. -/
theorem refresh_dirty (s : TessShape) : s.refresh.dirty = false := by
  unfold TessShape.refresh
  rcases h : s.dirty
  · simpa using h
  · simp

/-- The refresh step touches only the draw points, the draw centroid, and the
dirty flag. -/
theorem refresh_fields (s : TessShape) :
    s.refresh.originalPoints = s.originalPoints ∧
    s.refresh.originalCentroid = s.originalCentroid ∧
    s.refresh.translation = s.translation ∧
    s.refresh.rotation = s.rotation ∧
    s.refresh.color = s.color ∧
    s.refresh.fill = s.fill := by
  unfold TessShape.refresh
  rcases h : s.dirty
  · simp
  · simp [recalculateDrawPoints_fields s]

/-- On a coherent state, the refreshed draw points agree with a recompute
from the current rotation and translation. -/
theorem refresh_drawPoints (s : TessShape) (h : s.Coherent) :
    s.refresh.drawPoints = s.recalculateDrawPoints.drawPoints := by
  unfold TessShape.refresh
  rcases hd : s.dirty
  · simpa using (h hd).1
  · simp

/-- On a coherent state, the refreshed draw centroid agrees with a recompute
from the current rotation and translation. -/
theorem refresh_drawCentroid (s : TessShape) (h : s.Coherent) :
    s.refresh.drawCentroid = s.recalculateDrawPoints.drawCentroid := by
  unfold TessShape.refresh
  rcases hd : s.dirty
  · simpa using (h hd).2
  · simp

/-! ## Rotation wrap and trigonometric periodicity -/

/-- One call to `rotate` changes the accumulated angle by the delta plus a
single multiple of 360 (namely `-360`, `0`, or `+360`). -/
theorem rotate_rotation_congruent (s : TessShape) (d : ℝ) :
    ∃ k : ℤ, (s.rotate d).rotation = s.rotation + d + (k : ℝ) * 360 := by
  unfold TessShape.rotate
  dsimp only
  split
  · exact ⟨-1, by push_cast; ring⟩
  · split
    · exact ⟨1, by push_cast; ring⟩
    · exact ⟨0, by push_cast; ring⟩

/-- The `rotate` call sets the dirty flag and changes no field other than
the rotation angle. -/
theorem rotate_fields (s : TessShape) (d : ℝ) :
    (s.rotate d).originalPoints = s.originalPoints ∧
    (s.rotate d).originalCentroid = s.originalCentroid ∧
    (s.rotate d).drawPoints = s.drawPoints ∧
    (s.rotate d).drawCentroid = s.drawCentroid ∧
    (s.rotate d).translation = s.translation ∧
    (s.rotate d).dirty = true := by
  unfold TessShape.rotate
  exact ⟨rfl, rfl, rfl, rfl, rfl, rfl⟩

/-- Cosine of an angle in degrees is unchanged by adding a whole number of
full turns. -/
theorem cosDeg_add_int_mul (r : ℝ) (k : ℤ) :
    Real.cos ((r + (k : ℝ) * 360) * (Real.pi / 180)) = Real.cos (r * (Real.pi / 180)) := by
  have h : (r + (k : ℝ) * 360) * (Real.pi / 180) =
      r * (Real.pi / 180) + (k : ℝ) * (2 * Real.pi) := by ring
  rw [h, Real.cos_add_int_mul_two_pi]

/-- Sine of an angle in degrees is unchanged by adding a whole number of
full turns. -/
theorem sinDeg_add_int_mul (r : ℝ) (k : ℤ) :
    Real.sin ((r + (k : ℝ) * 360) * (Real.pi / 180)) = Real.sin (r * (Real.pi / 180)) := by
  have h : (r + (k : ℝ) * 360) * (Real.pi / 180) =
      r * (Real.pi / 180) + (k : ℝ) * (2 * Real.pi) := by ring
  rw [h, Real.sin_add_int_mul_two_pi]

/-- Recomputation produces identical draw points on two states that agree on
base points, base centroid, and translation and whose rotation angles differ
by a whole number of full turns. -/
theorem recalculateDrawPoints_congr (s t : TessShape)
    (hp : s.originalPoints = t.originalPoints)
    (hc : s.originalCentroid = t.originalCentroid)
    (ht : s.translation = t.translation)
    (hr : ∃ k : ℤ, s.rotation = t.rotation + (k : ℝ) * 360) :
    s.recalculateDrawPoints.drawPoints = t.recalculateDrawPoints.drawPoints := by
  obtain ⟨k, hk⟩ := hr
  rw [recalculateDrawPoints_drawPoints, recalculateDrawPoints_drawPoints,
    hp, hc, ht, hk, cosDeg_add_int_mul, sinDeg_add_int_mul]

/-- Recomputation produces identical draw centroids on two states that agree
on base centroid and translation. -/
theorem recalculateDrawPoints_centroid_congr (s t : TessShape)
    (hc : s.originalCentroid = t.originalCentroid)
    (ht : s.translation = t.translation) :
    s.recalculateDrawPoints.drawCentroid = t.recalculateDrawPoints.drawCentroid := by
  rw [recalculateDrawPoints_drawCentroid, recalculateDrawPoints_drawCentroid, hc, ht]

/-- Recomputation yields one draw point per base point. -/
theorem recalculateDrawPoints_length (s : TessShape) :
    s.recalculateDrawPoints.drawPoints.length = s.originalPoints.length := by
  rw [recalculateDrawPoints_drawPoints, List.length_map]

/-! ## The reachable-state invariants and their preservation -/

/-- Freshly constructed shapes are well formed. -/
theorem construct_wf (points : List Pt) : (TessShape.construct points).WF := rfl

/-- Freshly constructed shapes are coherent (the dirty flag is set, so
coherence holds vacuously). -/
theorem construct_coherent (points : List Pt) : (TessShape.construct points).Coherent := by
  intro h
  exact absurd h (by unfold TessShape.construct; simp)

/-- Moving preserves well-formedness. -/
theorem moveTo_wf (s : TessShape) (p : Pt) (h : s.WF) : (s.moveTo p).WF := h

/-- Moving leaves the shape coherent (it sets the dirty flag). -/
theorem moveTo_coherent (s : TessShape) (p : Pt) : (s.moveTo p).Coherent := by
  intro h
  exact absurd h (by unfold TessShape.moveTo; simp)

/-- Rotating preserves well-formedness. -/
theorem rotate_wf (s : TessShape) (d : ℝ) (h : s.WF) : (s.rotate d).WF := h

/-- Rotating leaves the shape coherent (it sets the dirty flag). -/
theorem rotate_coherent (s : TessShape) (d : ℝ) : (s.rotate d).Coherent := by
  intro h
  exact absurd h (by unfold TessShape.rotate; simp)

/-- Refreshing preserves well-formedness. -/
theorem refresh_wf (s : TessShape) (h : s.WF) : s.refresh.WF := by
  unfold TessShape.refresh TessShape.WF
  rcases hd : s.dirty
  · simpa using h
  · simpa using recalculateDrawPoints_length s

/-- Under well-formedness the refreshed draw-point list has one entry per
base point. -/
theorem refresh_length (s : TessShape) (h : s.WF) :
    s.refresh.drawPoints.length = s.originalPoints.length := by
  have h1 := refresh_wf s h
  unfold TessShape.WF at h1
  rw [h1, (refresh_fields s).1]

/-- Refreshing preserves coherence: the cache it writes is exactly what a
recompute from the (unchanged) rotation and translation produces. -/
theorem refresh_coherent (s : TessShape) (h : s.Coherent) : s.refresh.Coherent := by
  intro _
  unfold TessShape.refresh
  rcases hd : s.dirty
  · simpa using h hd
  · simp only [if_pos]
    constructor
    · exact (recalculateDrawPoints_congr _ _
        ((recalculateDrawPoints_fields s).1)
        ((recalculateDrawPoints_fields s).2.1)
        ((recalculateDrawPoints_fields s).2.2.1)
        ⟨0, by rw [(recalculateDrawPoints_fields s).2.2.2.1]; push_cast; ring⟩).symm
    · exact (recalculateDrawPoints_centroid_congr _ _
        ((recalculateDrawPoints_fields s).2.1)
        ((recalculateDrawPoints_fields s).2.2.1)).symm

/-- On a coherent state, the observed vertex list equals a recompute from
the current rotation and translation. -/
theorem vertices_fst (s : TessShape) (h : s.Coherent) :
    (s.vertices).1 = s.recalculateDrawPoints.drawPoints :=
  refresh_drawPoints s h

/-- On a coherent state, the observed centroid equals a recompute from the
current translation. -/
theorem getCentroid_fst (s : TessShape) (h : s.Coherent) :
    (s.getCentroid).1 = s.recalculateDrawPoints.drawCentroid :=
  refresh_drawCentroid s h

/-! ## C10: setColor touches only the colour state -/

/-- C10: `setColor` modifies only the fill state: base points, base
centroid, rotation angle, translation offset, cached transformed points,
cached transformed centroid, and the stale flag are all unchanged; the
stored colour becomes the argument, and fill rendering is enabled exactly
when the new colour is not `olc::BLANK`. -/
theorem setColor_frame_effect (s : TessShape) (c : Pixel) :
    (s.setColor c).originalPoints = s.originalPoints ∧
    (s.setColor c).originalCentroid = s.originalCentroid ∧
    (s.setColor c).rotation = s.rotation ∧
    (s.setColor c).translation = s.translation ∧
    (s.setColor c).drawPoints = s.drawPoints ∧
    (s.setColor c).drawCentroid = s.drawCentroid ∧
    (s.setColor c).dirty = s.dirty ∧
    (s.setColor c).color = c ∧
    ((s.setColor c).fill = true ↔ c ≠ BLANK) := by
  unfold TessShape.setColor
  by_cases h : c = BLANK
  · simp [h]
  · simp [h]

/-! ## C2: construction never fails and sets the documented initial state -/

/-- C2 (amended): construction never fails — the constructor contains no
point-count validation — and for any nonempty point list it stores the base
points, sets the base centroid to the arithmetic mean of the points,
initializes the rotation to 0 and the translation offset to `(0, 0)`, and
marks the shape stale. -/
theorem construct_initial_state (points : List Pt) (_h : points ≠ []) :
    ¬ TessShape.constructFails points ∧
    (TessShape.construct points).originalPoints = points ∧
    (TessShape.construct points).originalCentroid =
      ⟨(points.map Pt.x).sum / (points.length : ℝ),
       (points.map Pt.y).sum / (points.length : ℝ)⟩ ∧
    (TessShape.construct points).rotation = 0 ∧
    (TessShape.construct points).translation = ⟨0, 0⟩ ∧
    (TessShape.construct points).dirty = true :=
  ⟨fun hf => hf, rfl, rfl, rfl, rfl, rfl⟩

/-- Witness for C2 (amended): a concrete two-point list — fewer than 3
points — is accepted and produces the documented initial state. -/
theorem construct_initial_state_witness :
    ¬ TessShape.constructFails [(⟨0, 0⟩ : Pt), ⟨2, 0⟩] ∧
    (TessShape.construct [(⟨0, 0⟩ : Pt), ⟨2, 0⟩]).rotation = 0 ∧
    (TessShape.construct [(⟨0, 0⟩ : Pt), ⟨2, 0⟩]).dirty = true :=
  ⟨(construct_initial_state [⟨0, 0⟩, ⟨2, 0⟩] (by simp)).1,
   (construct_initial_state [⟨0, 0⟩, ⟨2, 0⟩] (by simp)).2.2.2.1,
   (construct_initial_state [⟨0, 0⟩, ⟨2, 0⟩] (by simp)).2.2.2.2.2⟩

/-- C2 counterexample: the claim "construction fails with InvalidGeometry
if and only if fewer than 3 points are supplied" is false — a two-point
list has fewer than 3 entries, yet construction does not fail (there is no
validation in the constructor). -/
theorem construct_two_points_counterexample :
    ¬ (TessShape.constructFails [(⟨0, 0⟩ : Pt), ⟨1, 0⟩] ↔
        ([(⟨0, 0⟩ : Pt), ⟨1, 0⟩]).length < 3) := by
  intro hiff
  exact hiff.mpr (by norm_num)

/-! ## C4: rotation accumulation and wrapping -/

/-- C4 (amended): `rotate(delta)` adds the delta to the accumulated angle up
to a single wrap of plus or minus 360, and — provided the prior angle lies
in `[-360, 360]` and the delta's magnitude is at most 360 — the post-state
angle lies in the closed range `[-360, 360]` (the endpoints are attainable,
so the range is closed rather than half-open). -/
theorem rotate_wrap_range (s : TessShape) (d : ℝ)
    (h1 : -360 ≤ s.rotation) (h2 : s.rotation ≤ 360) (h3 : |d| ≤ 360) :
    (∃ k : ℤ, (s.rotate d).rotation = s.rotation + d + (k : ℝ) * 360) ∧
    -360 ≤ (s.rotate d).rotation ∧ (s.rotate d).rotation ≤ 360 := by
  refine ⟨rotate_rotation_congruent s d, ?_⟩
  unfold TessShape.rotate
  dsimp only
  rw [abs_le] at h3
  constructor
  · split
    · linarith
    · split
      · linarith
      · linarith
  · split
    · linarith
    · split
      · linarith
      · linarith

/-- Witness for C4 (amended): rotating a freshly constructed triangle by 15
degrees keeps the accumulated angle inside `[-360, 360]`. -/
theorem rotate_wrap_range_witness :
    -360 ≤ ((TessShape.construct [(⟨0, 0⟩ : Pt), ⟨1, 0⟩, ⟨0, 1⟩]).rotate 15).rotation ∧
    ((TessShape.construct [(⟨0, 0⟩ : Pt), ⟨1, 0⟩, ⟨0, 1⟩]).rotate 15).rotation ≤ 360 :=
  (rotate_wrap_range (TessShape.construct [⟨0, 0⟩, ⟨1, 0⟩, ⟨0, 1⟩]) 15
    (by norm_num [TessShape.construct])
    (by norm_num [TessShape.construct])
    (by rw [abs_le]; constructor <;> norm_num)).2

/-- C4 counterexample: from the freshly constructed state (angle 0), a
single `rotate(1000)` leaves the angle at 640, outside the claimed range
`(-360, 360]` — the single wrap step does not bound arbitrary deltas. -/
theorem rotate_wrap_counterexample :
    ((TessShape.construct [(⟨0, 0⟩ : Pt), ⟨1, 0⟩, ⟨0, 1⟩]).rotate 1000).rotation = 640 ∧
    ¬ ((TessShape.construct [(⟨0, 0⟩ : Pt), ⟨1, 0⟩, ⟨0, 1⟩]).rotate 1000).rotation ≤ 360 := by
  have h : ((TessShape.construct [(⟨0, 0⟩ : Pt), ⟨1, 0⟩, ⟨0, 1⟩]).rotate 1000).rotation = 640 := by
    unfold TessShape.rotate TessShape.construct
    dsimp only
    rw [if_pos (by norm_num)]
    norm_num
  exact ⟨h, by rw [h]; norm_num⟩

/-! ## C5: moveTo is absolute -/

/-- C5: `moveTo` is absolute, not additive — for every shape state and every
target `p`, `moveTo(p)` sets the translation offset to `p` minus the base
centroid, and the centroid observed immediately afterwards equals `p` within
the 0.01-per-coordinate rounding tolerance, regardless of prior translation
or rotation state. -/
theorem moveTo_centroid (s : TessShape) (p : Pt) :
    (s.moveTo p).translation = Pt.sub p s.originalCentroid ∧
    |(((s.moveTo p).getCentroid).1).x - p.x| ≤ 1 / 100 ∧
    |(((s.moveTo p).getCentroid).1).y - p.y| ≤ 1 / 100 := by
  have hc : (((s.moveTo p).getCentroid).1) = RoundPointCoordinates ⟨p.x, p.y⟩ 2 := by
    unfold TessShape.getCentroid
    dsimp only
    have hd : (s.moveTo p).dirty = true := rfl
    unfold TessShape.refresh
    rw [if_pos hd, recalculateDrawPoints_drawCentroid]
    unfold TessShape.moveTo Pt.sub
    dsimp only
    congr 1
    simp [Pt.mk.injEq]
  refine ⟨rfl, ?_, ?_⟩
  · rw [hc, RoundPointCoordinates_two]
    exact abs_round2_sub_le p.x
  · rw [hc, RoundPointCoordinates_two]
    exact abs_round2_sub_le p.y

/-- The recompute pipeline as a composition of the two loop bodies: rotate
about the base centroid and round, then translate and round again. -/
theorem recalculateDrawPoints_eq_map (s : TessShape) :
    s.recalculateDrawPoints.drawPoints = s.originalPoints.map (fun point =>
      translateRound s.translation (rotateRound s.originalCentroid s.rotation point)) := by
  unfold TessShape.recalculateDrawPoints translateRound rotateRound
  dsimp only
  rw [List.map_map]
  rfl

/-! ## C3: the vertex transform and its rounding discipline -/

/-- C3 (amended): for every coherent shape state, `vertices()` returns the
base points each transformed by translating relative to the base centroid,
applying the standard 2D rotation matrix, translating back, and rounding to
2 decimal places, and then adding the translation offset and rounding the
result to 2 decimal places a second time — two rounding steps, one after the
rotation and one after the translation, not a single final rounding. -/
theorem vertices_transform (s : TessShape) (h : s.Coherent) :
    (s.vertices).1 = s.originalPoints.map (fun point =>
      translateRound s.translation (rotateRound s.originalCentroid s.rotation point)) := by
  rw [vertices_fst s h, recalculateDrawPoints_eq_map]

/-- Witness for C3 (amended): the transform equation instantiated on a
freshly constructed concrete triangle. -/
theorem vertices_transform_witness :
    ((TessShape.construct [(⟨0, 0⟩ : Pt), ⟨4, 0⟩, ⟨0, 4⟩]).vertices).1 =
      (TessShape.construct [(⟨0, 0⟩ : Pt), ⟨4, 0⟩, ⟨0, 4⟩]).originalPoints.map (fun point =>
        translateRound (TessShape.construct [(⟨0, 0⟩ : Pt), ⟨4, 0⟩, ⟨0, 4⟩]).translation
          (rotateRound (TessShape.construct [(⟨0, 0⟩ : Pt), ⟨4, 0⟩, ⟨0, 4⟩]).originalCentroid
            (TessShape.construct [(⟨0, 0⟩ : Pt), ⟨4, 0⟩, ⟨0, 4⟩]).rotation point)) :=
  vertices_transform _ (construct_coherent _)

/-! ## C8: rotating by x and then by -x is the identity up to the wrap -/

/-- C8: for every coherent shape state and every angle `x`, performing
`rotate(x)` and then `rotate(-x)` leaves the accumulated angle congruent to
its prior value modulo 360, and the vertex list observed afterwards is
exactly the pre-rotation vertex list (hence certainly within the 0.01
rounding tolerance). -/
theorem rotate_inverse (s : TessShape) (x : ℝ) (h : s.Coherent) :
    (∃ k : ℤ, ((s.rotate x).rotate (-x)).rotation = s.rotation + (k : ℝ) * 360) ∧
    ((((s.rotate x).rotate (-x)).vertices).1 = (s.vertices).1) := by
  obtain ⟨k1, hk1⟩ := rotate_rotation_congruent s x
  obtain ⟨k2, hk2⟩ := rotate_rotation_congruent (s.rotate x) (-x)
  have hr : ((s.rotate x).rotate (-x)).rotation = s.rotation + ((k1 + k2 : ℤ) : ℝ) * 360 := by
    rw [hk2, hk1]
    push_cast
    ring
  refine ⟨⟨k1 + k2, hr⟩, ?_⟩
  have h2 : ((((s.rotate x).rotate (-x)).vertices).1) =
      ((s.rotate x).rotate (-x)).recalculateDrawPoints.drawPoints := by
    unfold TessShape.vertices
    dsimp only
    unfold TessShape.refresh
    rw [if_pos ((rotate_fields (s.rotate x) (-x)).2.2.2.2.2)]
  rw [h2, vertices_fst s h]
  apply recalculateDrawPoints_congr
  · rw [(rotate_fields (s.rotate x) (-x)).1, (rotate_fields s x).1]
  · rw [(rotate_fields (s.rotate x) (-x)).2.1, (rotate_fields s x).2.1]
  · rw [(rotate_fields (s.rotate x) (-x)).2.2.2.2.1, (rotate_fields s x).2.2.2.2.1]
  · exact ⟨k1 + k2, hr⟩

/-- Witness for C8: the rotate-then-unrotate identity instantiated with a
concrete triangle and the angle 90. -/
theorem rotate_inverse_witness :
    ((((TessShape.construct [(⟨0, 0⟩ : Pt), ⟨1, 0⟩, ⟨0, 1⟩]).rotate 90).rotate
        (-90)).vertices).1 =
      ((TessShape.construct [(⟨0, 0⟩ : Pt), ⟨1, 0⟩, ⟨0, 1⟩]).vertices).1 :=
  (rotate_inverse (TessShape.construct [⟨0, 0⟩, ⟨1, 0⟩, ⟨0, 1⟩]) 90
    (construct_coherent [⟨0, 0⟩, ⟨1, 0⟩, ⟨0, 1⟩])).2

/-! ## C6: snap points are the vertices followed by the edge midpoints -/

/-- C6: for every well-formed shape with `n` vertices, `snapPoints()` returns
exactly `2 * n` points — the `n` transformed vertices in their original
order, followed by the `n` edge midpoints in edge order, where the `i`-th
midpoint is half the sum of transformed vertex `i` and transformed vertex
`(i + 1) mod n` (the last edge wraps back to the first vertex). -/
theorem snapPoints_structure (s : TessShape) (h : s.WF) :
    ((s.snapPoints).1).length = 2 * s.originalPoints.length ∧
    (∀ i, i < s.originalPoints.length →
      ((s.snapPoints).1).getD i ⟨0, 0⟩ = ((s.vertices).1).getD i ⟨0, 0⟩) ∧
    (∀ i, i < s.originalPoints.length →
      ((s.snapPoints).1).getD (s.originalPoints.length + i) ⟨0, 0⟩ =
        Pt.scale (Pt.add (((s.vertices).1).getD i ⟨0, 0⟩)
          (((s.vertices).1).getD ((i + 1) % s.originalPoints.length) ⟨0, 0⟩)) (1 / 2)) := by
  have hn : s.refresh.drawPoints.length = s.originalPoints.length := refresh_length s h
  have hsnap : ((s.snapPoints).1) = s.refresh.drawPoints ++
      (List.range s.refresh.drawPoints.length).map (fun i =>
        Pt.scale (Pt.add (s.refresh.drawPoints.getD i ⟨0, 0⟩)
          (s.refresh.drawPoints.getD ((i + 1) % s.refresh.drawPoints.length) ⟨0, 0⟩))
          (1 / 2)) := rfl
  have hv : ((s.vertices).1) = s.refresh.drawPoints := rfl
  refine ⟨?_, ?_, ?_⟩
  · rw [hsnap, List.length_append, List.length_map, List.length_range, hn]
    omega
  · intro i hi
    rw [hsnap, hv, List.getD_append _ _ _ _ (by rw [hn]; exact hi)]
  · intro i hi
    rw [hsnap, hv, List.getD_append_right _ _ _ _ (by rw [hn]; omega)]
    have hidx : s.originalPoints.length + i - s.refresh.drawPoints.length = i := by
      rw [hn]
      omega
    rw [hidx]
    have hlt : i < ((List.range s.refresh.drawPoints.length).map (fun i =>
        Pt.scale (Pt.add (s.refresh.drawPoints.getD i ⟨0, 0⟩)
          (s.refresh.drawPoints.getD ((i + 1) % s.refresh.drawPoints.length) ⟨0, 0⟩))
          (1 / 2))).length := by
      rw [List.length_map, List.length_range, hn]
      exact hi
    rw [List.getD_eq_getElem _ _ hlt, List.getElem_map, List.getElem_range, hn]

/-- Witness for C6: the snap-point count equation instantiated on a concrete
triangle (3 vertices, 6 snap points). -/
theorem snapPoints_structure_witness :
    (((TessShape.construct [(⟨0, 0⟩ : Pt), ⟨3, 0⟩, ⟨0, 3⟩]).snapPoints).1).length =
      2 * (TessShape.construct [(⟨0, 0⟩ : Pt), ⟨3, 0⟩, ⟨0, 3⟩]).originalPoints.length :=
  (snapPoints_structure _ (construct_wf _)).1

/-! ## C9: the ray-casting division is guarded -/

/-- The instrumented per-edge test never reports a division by zero and
agrees with the uninstrumented test: when the straddle guard passes, the two
edge endpoints lie on opposite sides of the query's y coordinate, so the
denominator of the crossing quotient cannot vanish. -/
theorem edgeConditionChecked_eq (d : List Pt) (point : Pt) (i : ℕ) :
    edgeConditionChecked d point i = some (edgeCondition d point i) := by
  unfold edgeConditionChecked edgeCondition
  dsimp only
  set pti := d.getD i ⟨0, 0⟩ with hpti
  set ptj := d.getD ((i + 1) % d.length) ⟨0, 0⟩ with hptj
  by_cases hg : ¬((pti.y > point.y) ↔ (ptj.y > point.y))
  · rw [if_pos hg]
    have hden : ptj.y - pti.y ≠ 0 := by
      by_cases hA : pti.y > point.y
      · have hB : ¬(ptj.y > point.y) := fun hB => hg (iff_of_true hA hB)
        have : ptj.y < pti.y := lt_of_le_of_lt (not_lt.mp hB) hA
        exact sub_ne_zero.mpr (ne_of_lt this)
      · have hB : ptj.y > point.y := by
          by_contra hB
          exact hg (iff_of_false hA hB)
        have : pti.y < ptj.y := lt_of_le_of_lt (not_lt.mp hA) hB
        exact sub_ne_zero.mpr (ne_of_gt this)
    rw [if_neg hden]
    congr 1
    rw [decide_eq_decide]
    exact (and_iff_right hg).symm
  · rw [if_neg hg]
    congr 1
    symm
    rw [decide_eq_false_iff_not]
    intro hcon
    exact hg hcon.1

/-- Mapping an option-valued function that always succeeds over a list
collects exactly the underlying values. -/
theorem mapM_eq_some_map {α β : Type} (f : α → Option β) (g : α → β) (l : List α)
    (h : ∀ x ∈ l, f x = some (g x)) : l.mapM f = some (l.map g) := by
  induction l with
  | nil => rfl
  | cons a t ih =>
    rw [List.map_cons, List.mapM_cons, h a (List.mem_cons_self a t),
      ih (fun x hx => h x (List.mem_cons_of_mem a hx))]
    rfl

/-- C9: `isInside` is total and its division-by-zero branch is unreachable
for every query point and every cached polygon, self-intersecting or not:
the instrumented evaluator, which reports `none` whenever an evaluated edge
test would divide by zero, always returns `some` of exactly the value the
raw ray-casting parity test computes. -/
theorem isInsideChecked_total (s : TessShape) (point : Pt) :
    s.isInsideChecked point = some (s.isInside point) := by
  unfold TessShape.isInsideChecked TessShape.isInside
  rw [mapM_eq_some_map _ (edgeCondition s.drawPoints point) _
    (fun i _ => edgeConditionChecked_eq s.drawPoints point i)]
  show some _ = _
  rw [List.countP_map]
  rfl

/-! ## C7: the snap-pair search -/

/-- C7: the snap-pair search over two shapes returns exactly the pairs of
snap points at Euclidean distance strictly below `SNAP_DIST_MAX` (5), each
paired with its distance; in particular, when every point pair is at
distance 5 or more the result is empty. -/
theorem findClosestSnapPoints_spec (a b : TessShape) :
    (∀ (p q : Pt) (δ : ℝ), (⟨p, q, δ⟩ : SnapPair) ∈ FindClosestSnapPoints a b ↔
      (p ∈ (a.snapPoints).1 ∧ q ∈ (b.snapPoints).1 ∧
        δ = (Pt.sub p q).mag ∧ (Pt.sub p q).mag < SNAP_DIST_MAX)) ∧
    ((∀ p ∈ (a.snapPoints).1, ∀ q ∈ (b.snapPoints).1,
        SNAP_DIST_MAX ≤ (Pt.sub p q).mag) → FindClosestSnapPoints a b = []) := by
  have hmem : ∀ (p q : Pt) (δ : ℝ), (⟨p, q, δ⟩ : SnapPair) ∈ FindClosestSnapPoints a b ↔
      (p ∈ (a.snapPoints).1 ∧ q ∈ (b.snapPoints).1 ∧
        δ = (Pt.sub p q).mag ∧ (Pt.sub p q).mag < SNAP_DIST_MAX) := by
    intro p q δ
    unfold FindClosestSnapPoints
    dsimp only
    rw [List.mem_flatMap]
    constructor
    · rintro ⟨c, hc, hmem2⟩
      rw [List.mem_filterMap] at hmem2
      obtain ⟨k, hk, heq⟩ := hmem2
      by_cases hlt : (Pt.sub c k).mag < SNAP_DIST_MAX
      · rw [if_pos hlt, Option.some.injEq, SnapPair.mk.injEq] at heq
        obtain ⟨h1, h2, h3⟩ := heq
        subst h1
        subst h2
        exact ⟨hc, hk, h3.symm, hlt⟩
      · rw [if_neg hlt] at heq
        exact absurd heq (Option.noConfusion)
    · rintro ⟨hp, hq, hδ, hlt⟩
      refine ⟨p, hp, ?_⟩
      rw [List.mem_filterMap]
      refine ⟨q, hq, ?_⟩
      rw [if_pos hlt, hδ]
  refine ⟨hmem, ?_⟩
  intro hfar
  rw [List.eq_nil_iff_forall_not_mem]
  intro sp hsp
  obtain ⟨p, q, δ⟩ := sp
  rw [hmem p q δ] at hsp
  exact absurd hsp.2.2.2 (not_lt.mpr (hfar p hsp.1 q hsp.2.1))

/-! ## Concrete-evaluation toolkit -/

/-- Rounding at angle zero: the rotation matrix is the identity, so only the
rounding step remains. -/
theorem rotateRound_zero (c : Pt) (p : Pt) :
    rotateRound c 0 p = RoundPointCoordinates p 2 := by
  unfold rotateRound
  dsimp only
  rw [zero_mul, Real.cos_zero, Real.sin_zero]
  congr 1
  rw [Pt.mk.injEq]
  constructor
  · ring
  · ring

/-- Translating by the zero vector only rounds. -/
theorem translateRound_zero (p : Pt) :
    translateRound ⟨0, 0⟩ p = RoundPointCoordinates p 2 := by
  unfold translateRound
  congr 1
  show (⟨p.x + 0, p.y + 0⟩ : Pt) = ⟨p.x, p.y⟩
  rw [Pt.mk.injEq]
  constructor
  · ring
  · ring

/-- Rounding to two decimals is idempotent. -/
theorem RoundPointCoordinates_idem (p : Pt) :
    RoundPointCoordinates (RoundPointCoordinates p 2) 2 = RoundPointCoordinates p 2 := by
  rw [RoundPointCoordinates_two p]
  refine RoundPointCoordinates_two_fixed _ (roundAway (p.x * 100)) (roundAway (p.y * 100)) ?_ ?_
  · show (roundAway (p.x * 100) : ℝ) / 100 * 100 = (roundAway (p.x * 100) : ℝ)
    field_simp
  · show (roundAway (p.y * 100) : ℝ) / 100 * 100 = (roundAway (p.y * 100) : ℝ)
    field_simp

/-- On a freshly constructed shape the first refresh recomputes the draw
points with rotation 0 and translation `(0, 0)`. -/
theorem construct_refresh_drawPoints (points : List Pt) :
    (TessShape.construct points).refresh.drawPoints =
      points.map (fun p => translateRound ⟨0, 0⟩
        (rotateRound (computeCentroid points) 0 p)) := by
  unfold TessShape.refresh
  have hd : (TessShape.construct points).dirty = true := rfl
  rw [if_pos hd]
  show (TessShape.construct points).recalculateDrawPoints.drawPoints = _
  rw [recalculateDrawPoints_eq_map]
  rfl

/-- A one-point shape whose coordinates are integer hundredths has its own
point, twice, as snap points (the single wrapping edge's midpoint is the
point itself). -/
theorem snapPoints_construct_singleton (p : Pt) (n m : ℤ)
    (hx : p.x * 100 = (n : ℝ)) (hy : p.y * 100 = (m : ℝ)) :
    ((TessShape.construct [p]).snapPoints).1 = [p, p] := by
  have hc : computeCentroid [p] = ⟨p.x, p.y⟩ := by
    unfold computeCentroid
    norm_num [Pt.mk.injEq]
  have hd : (TessShape.construct [p]).refresh.drawPoints = [p] := by
    rw [construct_refresh_drawPoints, List.map_cons, List.map_nil, hc, rotateRound_zero,
      translateRound_zero, RoundPointCoordinates_idem,
      RoundPointCoordinates_two_fixed _ n m hx hy]
  unfold TessShape.snapPoints
  dsimp only
  rw [hd]
  norm_num [List.range_succ, List.getD_cons_zero, Pt.add, Pt.scale, Pt.mk.injEq]
  show (⟨(p.x + p.x) * (1 / 2), (p.y + p.y) * (1 / 2)⟩ : Pt) = ⟨p.x, p.y⟩
  rw [Pt.mk.injEq]
  constructor <;> ring

/-- Witness for C7: two concrete one-point shapes 100 units apart — every
snap-point pair is at distance 100, at least the threshold 5 — produce an
empty snap-pair result. -/
theorem findClosestSnapPoints_witness :
    FindClosestSnapPoints (TessShape.construct [(⟨0, 0⟩ : Pt)])
      (TessShape.construct [(⟨100, 0⟩ : Pt)]) = [] := by
  refine (findClosestSnapPoints_spec _ _).2 ?_
  intro p hp q hq
  rw [snapPoints_construct_singleton (⟨0, 0⟩ : Pt) 0 0 (by norm_num) (by norm_num)] at hp
  rw [snapPoints_construct_singleton (⟨100, 0⟩ : Pt) 10000 0 (by norm_num) (by norm_num)] at hq
  simp only [List.mem_cons, List.not_mem_nil, or_false, or_self] at hp hq
  subst hp
  subst hq
  unfold SNAP_DIST_MAX Pt.sub Pt.mag
  dsimp only
  exact (Real.le_sqrt (by norm_num) (by norm_num)).mpr (by norm_num)

/-- An edge whose endpoints lie on the same side of the query's y coordinate
contributes no crossing. -/
theorem edgeCondition_false_of_iff (d : List Pt) (point : Pt) (i : ℕ)
    (h : ((d.getD i ⟨0, 0⟩).y > point.y ↔
      (d.getD ((i + 1) % d.length) ⟨0, 0⟩).y > point.y)) :
    edgeCondition d point i = false := by
  unfold edgeCondition
  dsimp only
  exact decide_eq_false (fun hcon => hcon.1 h)

/-- An edge whose ray crossing lies at or left of the query point
contributes no crossing. -/
theorem edgeCondition_false_of_le (d : List Pt) (point : Pt) (i : ℕ)
    (h : ¬(point.x < ((d.getD ((i + 1) % d.length) ⟨0, 0⟩).x - (d.getD i ⟨0, 0⟩).x) *
      (point.y - (d.getD i ⟨0, 0⟩).y) /
      ((d.getD ((i + 1) % d.length) ⟨0, 0⟩).y - (d.getD i ⟨0, 0⟩).y) +
      (d.getD i ⟨0, 0⟩).x)) :
    edgeCondition d point i = false := by
  unfold edgeCondition
  dsimp only
  exact decide_eq_false (fun hcon => h hcon.2)

/-- An edge that straddles the query's y coordinate, with the crossing
strictly right of the query point, contributes a crossing. -/
theorem edgeCondition_true_of (d : List Pt) (point : Pt) (i : ℕ)
    (hg : ¬((d.getD i ⟨0, 0⟩).y > point.y ↔
      (d.getD ((i + 1) % d.length) ⟨0, 0⟩).y > point.y))
    (hin : point.x < ((d.getD ((i + 1) % d.length) ⟨0, 0⟩).x - (d.getD i ⟨0, 0⟩).x) *
      (point.y - (d.getD i ⟨0, 0⟩).y) /
      ((d.getD ((i + 1) % d.length) ⟨0, 0⟩).y - (d.getD i ⟨0, 0⟩).y) +
      (d.getD i ⟨0, 0⟩).x) :
    edgeCondition d point i = true := by
  unfold edgeCondition
  dsimp only
  exact decide_eq_true ⟨hg, hin⟩

/-- Evaluation rule for the translate-and-round loop body on points whose
translated coordinates are integer hundredths. -/
theorem translateRound_eval (t p q : Pt) (n m : ℤ)
    (hq : p.x + t.x = q.x ∧ p.y + t.y = q.y)
    (hx : q.x * 100 = (n : ℝ)) (hy : q.y * 100 = (m : ℝ)) :
    translateRound t p = q := by
  unfold translateRound
  have harg : (⟨p.x + t.x, p.y + t.y⟩ : Pt) = ⟨q.x, q.y⟩ := by
    rw [Pt.mk.injEq]
    exact hq
  rw [harg]
  exact RoundPointCoordinates_two_fixed _ n m hx hy

/-- Evaluation rule for the rotate-and-round loop body at angle zero on
points whose coordinates are integer hundredths. -/
theorem rotateRound_zero_fixed (c p : Pt) (n m : ℤ)
    (hx : p.x * 100 = (n : ℝ)) (hy : p.y * 100 = (m : ℝ)) :
    rotateRound c 0 p = p := by
  rw [rotateRound_zero]
  exact RoundPointCoordinates_two_fixed p n m hx hy

/-! ## C1: which accessors recompute when stale -/

/-- C1 (amended): the refreshing accessors — `centroid()`, `vertices()`,
`snapPoints()` — recompute the transformed data when the stale flag is set,
so on coherent states the values they return are consistent with the current
rotation and translation; `containsPoint`/`isInside`, however, performs no
recompute: its result depends only on the cached draw points (it ignores the
current rotation, translation, and stale flag), so it can observe stale
values after a mutation. -/
theorem accessors_recompute_except_isInside (s : TessShape) (h : s.Coherent) :
    (s.getCentroid).1 = s.recalculateDrawPoints.drawCentroid ∧
    (s.vertices).1 = s.recalculateDrawPoints.drawPoints ∧
    (s.snapPoints).1 = s.recalculateDrawPoints.drawPoints ++
      (List.range s.recalculateDrawPoints.drawPoints.length).map (fun i =>
        Pt.scale (Pt.add (s.recalculateDrawPoints.drawPoints.getD i ⟨0, 0⟩)
          (s.recalculateDrawPoints.drawPoints.getD
            ((i + 1) % s.recalculateDrawPoints.drawPoints.length) ⟨0, 0⟩)) (1 / 2)) ∧
    (∀ (t : TessShape) (q : Pt), t.drawPoints = s.drawPoints →
      t.isInside q = s.isInside q) := by
  refine ⟨getCentroid_fst s h, vertices_fst s h, ?_, ?_⟩
  · unfold TessShape.snapPoints
    dsimp only
    rw [refresh_drawPoints s h]
  · intro t q ht
    unfold TessShape.isInside
    rw [ht]

/-- Witness for C1 (amended): the centroid accessor on a freshly
constructed concrete triangle returns the recomputed draw centroid. -/
theorem accessors_recompute_witness :
    ((TessShape.construct [(⟨0, 0⟩ : Pt), ⟨1, 0⟩, ⟨0, 1⟩]).getCentroid).1 =
      (TessShape.construct [(⟨0, 0⟩ : Pt), ⟨1, 0⟩, ⟨0, 1⟩]).recalculateDrawPoints.drawCentroid :=
  (accessors_recompute_except_isInside _ (construct_coherent _)).1

/-- C1 counterexample: an observer does see a stale derived value through
`containsPoint`.  Take the unit-4 square, read its centroid (clearing the
stale flag), then `moveTo (100, 100)`: the query `containsPoint (100, 100)`
returns `false` against the stale cached points even though the shape,
recomputed with its current translation, contains that point (the
recompute-first evaluation returns `true`), and the state is stale at the
moment of the call. -/
theorem isInside_stale_counterexample :
    ((((TessShape.construct [(⟨0, 0⟩ : Pt), ⟨4, 0⟩, ⟨4, 4⟩, ⟨0, 4⟩]).getCentroid).2.moveTo
        ⟨100, 100⟩).isInside ⟨100, 100⟩ = false) ∧
    ((((TessShape.construct [(⟨0, 0⟩ : Pt), ⟨4, 0⟩, ⟨4, 4⟩, ⟨0, 4⟩]).getCentroid).2.moveTo
        ⟨100, 100⟩).refresh.isInside ⟨100, 100⟩ = true) ∧
    ((((TessShape.construct [(⟨0, 0⟩ : Pt), ⟨4, 0⟩, ⟨4, 4⟩, ⟨0, 4⟩]).getCentroid).2.moveTo
        ⟨100, 100⟩).dirty = true) := by
  have hc : computeCentroid [(⟨0, 0⟩ : Pt), ⟨4, 0⟩, ⟨4, 4⟩, ⟨0, 4⟩] = ⟨2, 2⟩ := by
    unfold computeCentroid
    norm_num [Pt.mk.injEq]
  have hd1 : (TessShape.construct [(⟨0, 0⟩ : Pt), ⟨4, 0⟩, ⟨4, 4⟩, ⟨0, 4⟩]).refresh.drawPoints
      = [⟨0, 0⟩, ⟨4, 0⟩, ⟨4, 4⟩, ⟨0, 4⟩] := by
    rw [construct_refresh_drawPoints, hc]
    simp only [List.map_cons, List.map_nil]
    rw [rotateRound_zero_fixed ⟨2, 2⟩ ⟨0, 0⟩ 0 0 (by norm_num) (by norm_num),
      rotateRound_zero_fixed ⟨2, 2⟩ ⟨4, 0⟩ 400 0 (by norm_num) (by norm_num),
      rotateRound_zero_fixed ⟨2, 2⟩ ⟨4, 4⟩ 400 400 (by norm_num) (by norm_num),
      rotateRound_zero_fixed ⟨2, 2⟩ ⟨0, 4⟩ 0 400 (by norm_num) (by norm_num),
      translateRound_eval ⟨0, 0⟩ ⟨0, 0⟩ ⟨0, 0⟩ 0 0 (by norm_num) (by norm_num) (by norm_num),
      translateRound_eval ⟨0, 0⟩ ⟨4, 0⟩ ⟨4, 0⟩ 400 0 (by norm_num) (by norm_num) (by norm_num),
      translateRound_eval ⟨0, 0⟩ ⟨4, 4⟩ ⟨4, 4⟩ 400 400 (by norm_num) (by norm_num) (by norm_num),
      translateRound_eval ⟨0, 0⟩ ⟨0, 4⟩ ⟨0, 4⟩ 0 400 (by norm_num) (by norm_num) (by norm_num)]
  have hdp : ((((TessShape.construct [(⟨0, 0⟩ : Pt), ⟨4, 0⟩, ⟨4, 4⟩, ⟨0, 4⟩]).getCentroid).2.moveTo
      ⟨100, 100⟩)).drawPoints = [⟨0, 0⟩, ⟨4, 0⟩, ⟨4, 4⟩, ⟨0, 4⟩] := hd1
  have hfalse : ((((TessShape.construct [(⟨0, 0⟩ : Pt), ⟨4, 0⟩, ⟨4, 4⟩, ⟨0, 4⟩]).getCentroid).2.moveTo
      ⟨100, 100⟩)).isInside ⟨100, 100⟩ = false := by
    unfold TessShape.isInside
    rw [hdp]
    rw [show ([(⟨0, 0⟩ : Pt), ⟨4, 0⟩, ⟨4, 4⟩, ⟨0, 4⟩]).length = 4 from rfl]
    rw [show List.range 4 = [0, 1, 2, 3] from by rfl]
    rw [List.countP_cons, List.countP_cons, List.countP_cons, List.countP_cons, List.countP_nil]
    rw [edgeCondition_false_of_iff _ _ 0
        (iff_of_false (by norm_num [List.getD_cons_zero, List.getD_cons_succ])
          (by norm_num [List.getD_cons_zero, List.getD_cons_succ])),
      edgeCondition_false_of_iff _ _ 1
        (iff_of_false (by norm_num [List.getD_cons_zero, List.getD_cons_succ])
          (by norm_num [List.getD_cons_zero, List.getD_cons_succ])),
      edgeCondition_false_of_iff _ _ 2
        (iff_of_false (by norm_num [List.getD_cons_zero, List.getD_cons_succ])
          (by norm_num [List.getD_cons_zero, List.getD_cons_succ])),
      edgeCondition_false_of_iff _ _ 3
        (iff_of_false (by norm_num [List.getD_cons_zero, List.getD_cons_succ])
          (by norm_num [List.getD_cons_zero, List.getD_cons_succ]))]
    decide
  have hcent : ((((TessShape.construct [(⟨0, 0⟩ : Pt), ⟨4, 0⟩, ⟨4, 4⟩, ⟨0, 4⟩]).getCentroid).2.moveTo
      ⟨100, 100⟩)).originalCentroid = ⟨2, 2⟩ := hc
  have htrans : ((((TessShape.construct [(⟨0, 0⟩ : Pt), ⟨4, 0⟩, ⟨4, 4⟩, ⟨0, 4⟩]).getCentroid).2.moveTo
      ⟨100, 100⟩)).translation = ⟨98, 98⟩ := by
    show Pt.sub ⟨100, 100⟩ (computeCentroid [(⟨0, 0⟩ : Pt), ⟨4, 0⟩, ⟨4, 4⟩, ⟨0, 4⟩]) = ⟨98, 98⟩
    rw [hc]
    unfold Pt.sub
    norm_num [Pt.mk.injEq]
  have hd2 : ((((TessShape.construct [(⟨0, 0⟩ : Pt), ⟨4, 0⟩, ⟨4, 4⟩, ⟨0, 4⟩]).getCentroid).2.moveTo
      ⟨100, 100⟩)).refresh.drawPoints = [⟨98, 98⟩, ⟨102, 98⟩, ⟨102, 102⟩, ⟨98, 102⟩] := by
    unfold TessShape.refresh
    have hdirty : ((((TessShape.construct [(⟨0, 0⟩ : Pt), ⟨4, 0⟩, ⟨4, 4⟩, ⟨0, 4⟩]).getCentroid).2.moveTo
        ⟨100, 100⟩)).dirty = true := rfl
    rw [if_pos hdirty]
    show ((((TessShape.construct [(⟨0, 0⟩ : Pt), ⟨4, 0⟩, ⟨4, 4⟩, ⟨0, 4⟩]).getCentroid).2.moveTo
        ⟨100, 100⟩)).recalculateDrawPoints.drawPoints = _
    rw [recalculateDrawPoints_eq_map, hcent, htrans]
    have hrot : ((((TessShape.construct [(⟨0, 0⟩ : Pt), ⟨4, 0⟩, ⟨4, 4⟩, ⟨0, 4⟩]).getCentroid).2.moveTo
        ⟨100, 100⟩)).rotation = 0 := rfl
    rw [hrot]
    have horig : ((((TessShape.construct [(⟨0, 0⟩ : Pt), ⟨4, 0⟩, ⟨4, 4⟩, ⟨0, 4⟩]).getCentroid).2.moveTo
        ⟨100, 100⟩)).originalPoints = [(⟨0, 0⟩ : Pt), ⟨4, 0⟩, ⟨4, 4⟩, ⟨0, 4⟩] := rfl
    rw [horig]
    simp only [List.map_cons, List.map_nil]
    rw [rotateRound_zero_fixed ⟨2, 2⟩ ⟨0, 0⟩ 0 0 (by norm_num) (by norm_num),
      rotateRound_zero_fixed ⟨2, 2⟩ ⟨4, 0⟩ 400 0 (by norm_num) (by norm_num),
      rotateRound_zero_fixed ⟨2, 2⟩ ⟨4, 4⟩ 400 400 (by norm_num) (by norm_num),
      rotateRound_zero_fixed ⟨2, 2⟩ ⟨0, 4⟩ 0 400 (by norm_num) (by norm_num),
      translateRound_eval ⟨98, 98⟩ ⟨0, 0⟩ ⟨98, 98⟩ 9800 9800 (by norm_num) (by norm_num) (by norm_num),
      translateRound_eval ⟨98, 98⟩ ⟨4, 0⟩ ⟨102, 98⟩ 10200 9800 (by norm_num) (by norm_num) (by norm_num),
      translateRound_eval ⟨98, 98⟩ ⟨4, 4⟩ ⟨102, 102⟩ 10200 10200 (by norm_num) (by norm_num) (by norm_num),
      translateRound_eval ⟨98, 98⟩ ⟨0, 4⟩ ⟨98, 102⟩ 9800 10200 (by norm_num) (by norm_num) (by norm_num)]
  have htrue : ((((TessShape.construct [(⟨0, 0⟩ : Pt), ⟨4, 0⟩, ⟨4, 4⟩, ⟨0, 4⟩]).getCentroid).2.moveTo
      ⟨100, 100⟩)).refresh.isInside ⟨100, 100⟩ = true := by
    unfold TessShape.isInside
    rw [hd2]
    rw [show ([(⟨98, 98⟩ : Pt), ⟨102, 98⟩, ⟨102, 102⟩, ⟨98, 102⟩]).length = 4 from rfl]
    rw [show List.range 4 = [0, 1, 2, 3] from by rfl]
    rw [List.countP_cons, List.countP_cons, List.countP_cons, List.countP_cons, List.countP_nil]
    rw [edgeCondition_false_of_iff _ _ 0
        (iff_of_false (by norm_num [List.getD_cons_zero, List.getD_cons_succ])
          (by norm_num [List.getD_cons_zero, List.getD_cons_succ])),
      edgeCondition_true_of _ _ 1
        (by norm_num [List.getD_cons_zero, List.getD_cons_succ])
        (by norm_num [List.getD_cons_zero, List.getD_cons_succ]),
      edgeCondition_false_of_iff _ _ 2
        (iff_of_true (by norm_num [List.getD_cons_zero, List.getD_cons_succ])
          (by norm_num [List.getD_cons_zero, List.getD_cons_succ])),
      edgeCondition_false_of_le _ _ 3
        (by norm_num [List.getD_cons_zero, List.getD_cons_succ])]
    decide
  exact ⟨hfalse, htrue, rfl⟩

/-- General evaluation rule for two-decimal-place rounding of a point. -/
theorem RoundPointCoordinates_two_eq (p q : Pt) (n m : ℤ)
    (hn : roundAway (p.x * 100) = n) (hm : roundAway (p.y * 100) = m)
    (hqx : (n : ℝ) / 100 = q.x) (hqy : (m : ℝ) / 100 = q.y) :
    RoundPointCoordinates p 2 = q := by
  rw [RoundPointCoordinates_two, hn, hm, hqx, hqy]

/-- General evaluation rule for the translate-and-round loop body. -/
theorem translateRound_eq (t p q : Pt) (n m : ℤ)
    (hn : roundAway ((p.x + t.x) * 100) = n) (hm : roundAway ((p.y + t.y) * 100) = m)
    (hqx : (n : ℝ) / 100 = q.x) (hqy : (m : ℝ) / 100 = q.y) :
    translateRound t p = q := by
  unfold translateRound
  exact RoundPointCoordinates_two_eq _ q n m hn hm hqx hqy

/-- C3 counterexample: a single final rounding is observably different from
the code's two roundings.  For the base point `(0.004, 0)` with rotation 0
and translation `(0.004, 0.004)`, the code first rounds the rotated point to
`(0, 0)` and then rounds `(0.004, 0.004)` to `(0, 0)`, while rounding once
at the end rounds `(0.008, 0.004)` to `(0.01, 0)`. -/
theorem vertices_single_round_counterexample :
    ((((TessShape.construct [(⟨0.004, 0⟩ : Pt), ⟨1, 0⟩, ⟨-1.004, 0⟩]).moveTo
        ⟨0.004, 0.004⟩).vertices).1 = [⟨0, 0⟩, ⟨1, 0⟩, ⟨-1, 0⟩]) ∧
    (verticesSpecSingleRound ((TessShape.construct [(⟨0.004, 0⟩ : Pt), ⟨1, 0⟩, ⟨-1.004, 0⟩]).moveTo
        ⟨0.004, 0.004⟩) = [⟨0.01, 0⟩, ⟨1, 0⟩, ⟨-1, 0⟩]) ∧
    ((((TessShape.construct [(⟨0.004, 0⟩ : Pt), ⟨1, 0⟩, ⟨-1.004, 0⟩]).moveTo
        ⟨0.004, 0.004⟩).vertices).1 ≠
      verticesSpecSingleRound ((TessShape.construct [(⟨0.004, 0⟩ : Pt), ⟨1, 0⟩, ⟨-1.004, 0⟩]).moveTo
        ⟨0.004, 0.004⟩)) := by
  have hc3 : computeCentroid [(⟨0.004, 0⟩ : Pt), ⟨1, 0⟩, ⟨-1.004, 0⟩] = ⟨0, 0⟩ := by
    unfold computeCentroid
    norm_num [Pt.mk.injEq]
  have hcent : (((TessShape.construct [(⟨0.004, 0⟩ : Pt), ⟨1, 0⟩, ⟨-1.004, 0⟩]).moveTo
      ⟨0.004, 0.004⟩)).originalCentroid = ⟨0, 0⟩ := hc3
  have htrans : (((TessShape.construct [(⟨0.004, 0⟩ : Pt), ⟨1, 0⟩, ⟨-1.004, 0⟩]).moveTo
      ⟨0.004, 0.004⟩)).translation = ⟨0.004, 0.004⟩ := by
    show Pt.sub ⟨0.004, 0.004⟩ (computeCentroid [(⟨0.004, 0⟩ : Pt), ⟨1, 0⟩, ⟨-1.004, 0⟩]) = _
    rw [hc3]
    unfold Pt.sub
    norm_num [Pt.mk.injEq]
  have hrot : (((TessShape.construct [(⟨0.004, 0⟩ : Pt), ⟨1, 0⟩, ⟨-1.004, 0⟩]).moveTo
      ⟨0.004, 0.004⟩)).rotation = 0 := rfl
  have horig : (((TessShape.construct [(⟨0.004, 0⟩ : Pt), ⟨1, 0⟩, ⟨-1.004, 0⟩]).moveTo
      ⟨0.004, 0.004⟩)).originalPoints = [(⟨0.004, 0⟩ : Pt), ⟨1, 0⟩, ⟨-1.004, 0⟩] := rfl
  have hdirty : (((TessShape.construct [(⟨0.004, 0⟩ : Pt), ⟨1, 0⟩, ⟨-1.004, 0⟩]).moveTo
      ⟨0.004, 0.004⟩)).dirty = true := rfl
  have h1 : ((((TessShape.construct [(⟨0.004, 0⟩ : Pt), ⟨1, 0⟩, ⟨-1.004, 0⟩]).moveTo
      ⟨0.004, 0.004⟩).vertices).1 = ([⟨0, 0⟩, ⟨1, 0⟩, ⟨-1, 0⟩] : List Pt)) := by
    unfold TessShape.vertices
    dsimp only
    unfold TessShape.refresh
    rw [if_pos hdirty]
    show (((TessShape.construct [(⟨0.004, 0⟩ : Pt), ⟨1, 0⟩, ⟨-1.004, 0⟩]).moveTo
        ⟨0.004, 0.004⟩)).recalculateDrawPoints.drawPoints = _
    rw [recalculateDrawPoints_eq_map, horig, hcent, htrans, hrot]
    simp only [List.map_cons, List.map_nil, rotateRound_zero]
    rw [RoundPointCoordinates_two_eq ⟨0.004, 0⟩ ⟨0, 0⟩ 0 0
        (roundAway_eq_of_nonneg _ 0 (by norm_num) (by norm_num) (by norm_num))
        (roundAway_eq_of_nonneg _ 0 (by norm_num) (by norm_num) (by norm_num))
        (by norm_num) (by norm_num),
      RoundPointCoordinates_two_eq ⟨1, 0⟩ ⟨1, 0⟩ 100 0
        (roundAway_eq_of_nonneg _ 100 (by norm_num) (by norm_num) (by norm_num))
        (roundAway_eq_of_nonneg _ 0 (by norm_num) (by norm_num) (by norm_num))
        (by norm_num) (by norm_num),
      RoundPointCoordinates_two_eq ⟨-1.004, 0⟩ ⟨-1, 0⟩ (-100) 0
        (roundAway_eq_of_neg _ 100 (by norm_num) (by norm_num) (by norm_num))
        (roundAway_eq_of_nonneg _ 0 (by norm_num) (by norm_num) (by norm_num))
        (by norm_num) (by norm_num),
      translateRound_eq ⟨0.004, 0.004⟩ ⟨0, 0⟩ ⟨0, 0⟩ 0 0
        (roundAway_eq_of_nonneg _ 0 (by norm_num) (by norm_num) (by norm_num))
        (roundAway_eq_of_nonneg _ 0 (by norm_num) (by norm_num) (by norm_num))
        (by norm_num) (by norm_num),
      translateRound_eq ⟨0.004, 0.004⟩ ⟨1, 0⟩ ⟨1, 0⟩ 100 0
        (roundAway_eq_of_nonneg _ 100 (by norm_num) (by norm_num) (by norm_num))
        (roundAway_eq_of_nonneg _ 0 (by norm_num) (by norm_num) (by norm_num))
        (by norm_num) (by norm_num),
      translateRound_eq ⟨0.004, 0.004⟩ ⟨-1, 0⟩ ⟨-1, 0⟩ (-100) 0
        (roundAway_eq_of_neg _ 100 (by norm_num) (by norm_num) (by norm_num))
        (roundAway_eq_of_nonneg _ 0 (by norm_num) (by norm_num) (by norm_num))
        (by norm_num) (by norm_num)]
  have h2 : verticesSpecSingleRound ((TessShape.construct [(⟨0.004, 0⟩ : Pt), ⟨1, 0⟩, ⟨-1.004, 0⟩]).moveTo
      ⟨0.004, 0.004⟩) = ([⟨0.01, 0⟩, ⟨1, 0⟩, ⟨-1, 0⟩] : List Pt) := by
    unfold verticesSpecSingleRound
    rw [horig, hcent, htrans, hrot]
    dsimp only
    rw [zero_mul, Real.cos_zero, Real.sin_zero]
    simp only [List.map_cons, List.map_nil]
    rw [RoundPointCoordinates_two_eq _ ⟨0.01, 0⟩ 1 0
        (roundAway_eq_of_nonneg _ 1 (by norm_num) (by norm_num) (by norm_num))
        (roundAway_eq_of_nonneg _ 0 (by norm_num) (by norm_num) (by norm_num))
        (by norm_num) (by norm_num),
      RoundPointCoordinates_two_eq _ ⟨1, 0⟩ 100 0
        (roundAway_eq_of_nonneg _ 100 (by norm_num) (by norm_num) (by norm_num))
        (roundAway_eq_of_nonneg _ 0 (by norm_num) (by norm_num) (by norm_num))
        (by norm_num) (by norm_num),
      RoundPointCoordinates_two_eq _ ⟨-1, 0⟩ (-100) 0
        (roundAway_eq_of_neg _ 100 (by norm_num) (by norm_num) (by norm_num))
        (roundAway_eq_of_nonneg _ 0 (by norm_num) (by norm_num) (by norm_num))
        (by norm_num) (by norm_num)]
  refine ⟨h1, h2, ?_⟩
  rw [h1, h2]
  intro hbad
  norm_num [Pt.mk.injEq] at hbad
